import Mathlib

/-!
Verification development for the multi-scale template matcher
(`helper_scripts/template_match.py`).

Shallow embedding notes.
* An image is modelled by its dimensions (`h`, `w`).  The pixel-level
  numeric kernels of the external library (`cv2.resize`,
  `cv2.matchTemplate`) are floating-point black boxes; their output is
  modelled by an oracle `Corr` giving, for a resized template footprint
  `(tw, th)` and a window position `(x, y)`, the correlation value of the
  result matrix `res` at that position.  Everything the script itself
  computes (the scale sweep, the footprint rounding, the fit check, the
  `minMaxLoc` scan over the result matrix, the running-best update, the
  threshold decision, the output record, the exit codes) is translated
  directly from the source.
* Python floats are modelled by `ℚ`: the script only adds, multiplies,
  rounds and compares, and no claim hinges on binary floating-point
  rounding of those operations.
* `GaussianBlur` and `Canny` preserve image dimensions, so at the
  dimension level `edge_image` is the identity; correlation values of the
  edge maps enter through the oracle.
* A Python dict that may lack keys (`best` starts as `{score: -1.0}`)
  becomes a structure with an `Option` part; reading an absent key is a
  `KeyError`.  Exceptions are `Except`; CPython terminates with exit
  status 1 on an uncaught exception, which `processExit` encodes.
-/

namespace TemplateMatch

/-- An image, modelled at the dimension level: `shape[0] = h` rows and
`shape[1] = w` columns. -/
structure Img where
  h : ℕ
  w : ℕ
deriving DecidableEq

/-- Oracle for the external correlation kernel: `corr tw th x y` is the
value `res[y][x]` of `cv2.matchTemplate(large, resize(templ, (tw, th)))`. -/
abbrev Corr := ℕ → ℕ → ℕ → ℕ → ℚ

/-- The `cv2` template-matching methods that can be passed to
`multi_scale_template_search`. -/
inductive TMMethod where
  | ccoeff
  | ccoeffNormed
  | ccorr
  | ccorrNormed
  | sqdiff
  | sqdiffNormed
deriving DecidableEq

/-- `method in (cv2.TM_CCOEFF_NORMED, cv2.TM_CCORR_NORMED)`: the methods
whose score is `max_val` rather than `-min_val`. -/
def TMMethod.maxBased : TMMethod → Bool
  | .ccoeffNormed => true
  | .ccorrNormed => true
  | _ => false

/-- Python 3 `round` on a rational: round half to even. -/
def pyRound (q : ℚ) : ℤ :=
  let f := ⌊q⌋
  let r := q - (f : ℚ)
  if r < 1 / 2 then f
  else if 1 / 2 < r then f + 1
  else if f % 2 = 0 then f else f + 1

/-- `max(2, int(round(d * s)))`: one side of the resized template
footprint. -/
def footDim (d : ℕ) (s : ℚ) : ℕ :=
  (max 2 (pyRound ((d : ℚ) * s))).toNat

/-- The epsilon tolerance `1e-9` at the inclusive upper bound of the
scale sweep. -/
def sweepEps : ℚ := 1 / 1000000000

/-- Fuel bound for the scale sweep: enough iterations to cover
`min_s, min_s + step, …` up to `max_s + 1e-9` when `step > 0`. -/
def scaleFuel (min_s max_s step : ℚ) : ℕ :=
  if step ≤ 0 then 0 else (⌊(max_s + sweepEps - min_s) / step⌋).toNat + 2

/-- The iterated loop variable of `while s <= max_s + 1e-9: … s += step`. -/
def scaleSeqAux (max_s step : ℚ) : ℕ → ℚ → List ℚ
  | 0, _ => []
  | n + 1, s => if s ≤ max_s + sweepEps then s :: scaleSeqAux max_s step n (s + step) else []

/-- The sequence of scale factors visited by the sweep. -/
def scaleSeq (min_s max_s step : ℚ) : List ℚ :=
  scaleSeqAux max_s step (scaleFuel min_s max_s step) min_s

/-- Row-major list of the positions `(x, y)` of the result matrix of
width `resW` and height `resH`, as scanned by `cv2.minMaxLoc`. -/
def allPositions (resW resH : ℕ) : List (ℕ × ℕ) :=
  (List.range resH).flatMap (fun y => (List.range resW).map (fun x => (x, y)))

/-- The max-tracking part of `cv2.minMaxLoc`: fold keeping the first
strictly greatest value and its position. -/
def scanMax (f : ℕ → ℕ → ℚ) (ps : List (ℕ × ℕ)) (acc : ℚ × ℕ × ℕ) : ℚ × ℕ × ℕ :=
  ps.foldl (fun a p => if f p.1 p.2 > a.1 then (f p.1 p.2, p.1, p.2) else a) acc

/-- `max_val` and `max_loc` of `cv2.minMaxLoc` on a `resW × resH` result
matrix. -/
def minMaxLocMax (resW resH : ℕ) (f : ℕ → ℕ → ℚ) : ℚ × ℕ × ℕ :=
  scanMax f (allPositions resW resH) (f 0 0, 0, 0)

/-- `min_val` of `cv2.minMaxLoc` on a `resW × resH` result matrix. -/
def minMaxLocMinVal (resW resH : ℕ) (f : ℕ → ℕ → ℚ) : ℚ :=
  (allPositions resW resH).foldl (fun a p => min a (f p.1 p.2)) (f 0 0)

/-- The keys of the `best` dict other than `score`, present once a
candidate has replaced the `{score: -1.0}` sentinel. -/
structure CandFields where
  scale : ℚ
  w : ℕ
  h : ℕ
  x : ℕ
  y : ℕ
deriving DecidableEq

/-- The running `best` dict: `score` is always present; the remaining
keys exist exactly when `rest` is `some`. -/
structure BestRec where
  score : ℚ
  rest : Option CandFields
deriving DecidableEq

/-- One iteration of the scale sweep of `multi_scale_template_search`:
compute the footprint, skip if it does not fit strictly inside `large`,
otherwise scan the correlation matrix and replace `best` on a strictly
greater score. -/
def stepScale (large templ : Img) (corr : Corr) (method : TMMethod)
    (best : BestRec) (s : ℚ) : BestRec :=
  let th := footDim templ.h s
  let tw := footDim templ.w s
  if large.h ≤ th ∨ large.w ≤ tw then best
  else
    let resH := large.h - th + 1
    let resW := large.w - tw + 1
    let mx := minMaxLocMax resW resH (corr tw th)
    let score := if method.maxBased then mx.1 else -(minMaxLocMinVal resW resH (corr tw th))
    if best.score < score then
      { score := score, rest := some ⟨s, tw, th, mx.2.1, mx.2.2⟩ }
    else best

/-- `multi_scale_template_search(large, templ, scales, method)`: fold the
per-scale step over the sweep, starting from the `{score: -1.0}`
sentinel. -/
def multi_scale_template_search (large templ : Img) (corr : Corr) (method : TMMethod)
    (scales : ℚ × ℚ × ℚ := (0.5, 1.5, 0.05)) : BestRec :=
  (scaleSeq scales.1 scales.2.1 scales.2.2).foldl
    (stepScale large templ corr method) { score := -1, rest := none }

/-- The score the sweep would compute at scale `s`, or `none` when the
footprint does not fit and the scale is skipped. -/
def scaleScore (large templ : Img) (corr : Corr) (method : TMMethod) (s : ℚ) : Option ℚ :=
  let th := footDim templ.h s
  let tw := footDim templ.w s
  if large.h ≤ th ∨ large.w ≤ tw then none
  else
    let resH := large.h - th + 1
    let resW := large.w - tw + 1
    some (if method.maxBased then (minMaxLocMax resW resH (corr tw th)).1
          else -(minMaxLocMinVal resW resH (corr tw th)))

/-- The exceptions the script can raise, and the debug-write failure. -/
inductive PyErr where
  | fileNotFound
  | keyError
  | writeFailure
deriving DecidableEq

/-- `load_gray`: `cv2.imdecode` gives `none` for a missing or unreadable
file, and the script then raises `FileNotFoundError`. -/
def load_gray (decoded : Option Img) : Except PyErr Img :=
  match decoded with
  | none => .error .fileNotFound
  | some im => .ok im

/-- `edge_image`: `GaussianBlur` then `Canny`, both dimension-preserving,
so the identity at the dimension level. -/
def edge_image (im : Img) : Img := im

/-- The `match_box` object `{x, y, w, h}`. -/
structure Box where
  x : ℕ
  y : ℕ
  w : ℕ
  h : ℕ
deriving DecidableEq

/-- The JSON object printed by `main`, plus whether the debug image was
written. -/
structure MatchOut where
  found : Bool
  best : BestRec
  threshold : ℚ
  match_box : Option Box
  wroteDebug : Bool
deriving DecidableEq

/-- The scale range `main` passes to the search: `(0.4, 1.6, 0.05)`. -/
def mainScales : ℚ × ℚ × ℚ := (0.4, 1.6, 0.05)

/-- The tail of `main` after the search: threshold decision, `match_box`
construction (a `KeyError` when `best` is the sentinel), the optional
debug write (whose failure aborts before the result is printed), the
printed record and the `sys.exit` code. -/
def decideReport (best : BestRec) (thresh : ℚ) (dbg wOk : Bool) :
    Except PyErr (MatchOut × ℕ) :=
  if thresh ≤ best.score then
    match best.rest with
    | none => .error .keyError
    | some f =>
      let out : MatchOut :=
        { found := true, best := best, threshold := thresh,
          match_box := some ⟨f.x, f.y, f.w, f.h⟩, wroteDebug := dbg }
      if dbg then (if wOk then .ok (out, 0) else .error .writeFailure)
      else .ok (out, 0)
  else
    .ok ({ found := false, best := best, threshold := thresh,
           match_box := none, wroteDebug := false }, 1)

/-- `main`: load the target then the template (either load may raise),
edge-transform both, run the search at `mainScales`, then decide and
report.  `dbg` says whether `--debug` was supplied; `wOk` is the outcome
the external encoder/writer would have. -/
def main (img tpl : Option Img) (corr : Corr) (thresh : ℚ) (dbg wOk : Bool) :
    Except PyErr (MatchOut × ℕ) :=
  match load_gray img with
  | .error e => .error e
  | .ok large =>
    match load_gray tpl with
    | .error e => .error e
    | .ok templ =>
      decideReport
        (multi_scale_template_search (edge_image large) (edge_image templ)
          corr .ccoeffNormed mainScales)
        thresh dbg wOk

/-- The process exit status: the `sys.exit` argument on the normal paths,
and CPython's status 1 for an uncaught exception. -/
def processExit (r : Except PyErr (MatchOut × ℕ)) : ℕ :=
  match r with
  | .ok (_, c) => c
  | .error _ => 1

/-- The all-zero correlation oracle, used for concrete evaluations. -/
def zeroCorr : Corr := fun _ _ _ _ => 0

/-- The all-one correlation oracle, used for concrete evaluations. -/
def oneCorr : Corr := fun _ _ _ _ => 1

/-! ### Structural lemmas about the per-scale step -/

lemma scaleScore_some_fit {large templ : Img} {corr : Corr} {method : TMMethod} {s : ℚ}
    {sc : ℚ} (h : scaleScore large templ corr method s = some sc) :
    footDim templ.h s < large.h ∧ footDim templ.w s < large.w := by
  unfold scaleScore at h
  by_cases hc : large.h ≤ footDim templ.h s ∨ large.w ≤ footDim templ.w s
  · simp [hc] at h
  · push_neg at hc
    exact hc

lemma scaleScore_none_cond {large templ : Img} {corr : Corr} {method : TMMethod} {s : ℚ}
    (h : scaleScore large templ corr method s = none) :
    large.h ≤ footDim templ.h s ∨ large.w ≤ footDim templ.w s := by
  by_contra hc
  unfold scaleScore at h
  rw [if_neg hc] at h
  exact Option.noConfusion h

lemma scaleScore_some_val {large templ : Img} {corr : Corr} {method : TMMethod} {s sc : ℚ}
    (h : scaleScore large templ corr method s = some sc) :
    sc = (if method.maxBased then
            (minMaxLocMax (large.w - footDim templ.w s + 1) (large.h - footDim templ.h s + 1)
              (corr (footDim templ.w s) (footDim templ.h s))).1
          else
            -(minMaxLocMinVal (large.w - footDim templ.w s + 1) (large.h - footDim templ.h s + 1)
              (corr (footDim templ.w s) (footDim templ.h s)))) := by
  unfold scaleScore at h
  by_cases hc : large.h ≤ footDim templ.h s ∨ large.w ≤ footDim templ.w s
  · rw [if_pos hc] at h
    exact Option.noConfusion h
  · rw [if_neg hc] at h
    exact (Option.some.injEq _ _ ▸ h).symm

lemma stepScale_of_none {large templ : Img} {corr : Corr} {method : TMMethod}
    {b : BestRec} {s : ℚ} (h : scaleScore large templ corr method s = none) :
    stepScale large templ corr method b s = b := by
  unfold stepScale
  rw [if_pos (scaleScore_none_cond h)]

lemma stepScale_of_some {large templ : Img} {corr : Corr} {method : TMMethod}
    {b : BestRec} {s sc : ℚ} (h : scaleScore large templ corr method s = some sc) :
    stepScale large templ corr method b s =
      if b.score < sc then
        { score := sc,
          rest := some ⟨s, footDim templ.w s, footDim templ.h s,
            (minMaxLocMax (large.w - footDim templ.w s + 1) (large.h - footDim templ.h s + 1)
              (corr (footDim templ.w s) (footDim templ.h s))).2.1,
            (minMaxLocMax (large.w - footDim templ.w s + 1) (large.h - footDim templ.h s + 1)
              (corr (footDim templ.w s) (footDim templ.h s))).2.2⟩ }
      else b := by
  have hfit := scaleScore_some_fit h
  simp only [stepScale]
  rw [if_neg (by push_neg; exact hfit)]
  rw [← scaleScore_some_val h]

lemma scaleScore_cases (large templ : Img) (corr : Corr) (method : TMMethod) (s : ℚ) :
    scaleScore large templ corr method s = none ∨
      ∃ sc, scaleScore large templ corr method s = some sc := by
  cases scaleScore large templ corr method s with
  | none => exact Or.inl rfl
  | some sc => exact Or.inr ⟨sc, rfl⟩

lemma scanMax_snd (f : ℕ → ℕ → ℚ) :
    ∀ (ps : List (ℕ × ℕ)) (acc : ℚ × ℕ × ℕ),
      (scanMax f ps acc).2 = acc.2 ∨ (scanMax f ps acc).2 ∈ ps := by
  intro ps
  induction ps with
  | nil => intro acc; left; rfl
  | cons p ps ih =>
    intro acc
    rw [scanMax, List.foldl_cons]
    rcases ih (if f p.1 p.2 > acc.1 then (f p.1 p.2, p.1, p.2) else acc) with h | h
    · rw [scanMax] at h
      rw [h]
      by_cases hgt : f p.1 p.2 > acc.1
      · right
        simp [hgt]
      · left
        simp [hgt]
    · right
      rw [scanMax] at h
      exact List.mem_cons_of_mem p h

lemma mem_allPositions {p : ℕ × ℕ} {resW resH : ℕ} :
    p ∈ allPositions resW resH ↔ p.1 < resW ∧ p.2 < resH := by
  unfold allPositions
  constructor
  · intro h
    simp only [List.mem_flatMap, List.mem_map, List.mem_range] at h
    obtain ⟨y, hy, x, hx, hp⟩ := h
    subst hp
    exact ⟨hx, hy⟩
  · intro ⟨h1, h2⟩
    simp only [List.mem_flatMap, List.mem_map, List.mem_range]
    exact ⟨p.2, h2, p.1, h1, rfl⟩

lemma minMaxLocMax_pos_bound (resW resH : ℕ) (f : ℕ → ℕ → ℚ) :
    (minMaxLocMax resW resH f).2.1 ≤ resW - 1 ∧ (minMaxLocMax resW resH f).2.2 ≤ resH - 1 := by
  unfold minMaxLocMax
  rcases scanMax_snd f (allPositions resW resH) (f 0 0, 0, 0) with h | h
  · rw [h]
    exact ⟨Nat.zero_le _, Nat.zero_le _⟩
  · rw [mem_allPositions] at h
    omega

lemma stepScale_no_improve {large templ : Img} {corr : Corr} {method : TMMethod}
    {b : BestRec} {s : ℚ}
    (h : ∀ sc, scaleScore large templ corr method s = some sc → sc ≤ b.score) :
    stepScale large templ corr method b s = b := by
  rcases scaleScore_cases large templ corr method s with hs | ⟨sc, hs⟩
  · exact stepScale_of_none hs
  · rw [stepScale_of_some hs, if_neg (not_lt.mpr (h sc hs))]

lemma stepScale_or (large templ : Img) (corr : Corr) (method : TMMethod)
    (b : BestRec) (s : ℚ) :
    stepScale large templ corr method b s = b ∨
      (∃ sc, scaleScore large templ corr method s = some sc ∧ b.score < sc ∧
        stepScale large templ corr method b s =
          { score := sc,
            rest := some ⟨s, footDim templ.w s, footDim templ.h s,
              (minMaxLocMax (large.w - footDim templ.w s + 1) (large.h - footDim templ.h s + 1)
                (corr (footDim templ.w s) (footDim templ.h s))).2.1,
              (minMaxLocMax (large.w - footDim templ.w s + 1) (large.h - footDim templ.h s + 1)
                (corr (footDim templ.w s) (footDim templ.h s))).2.2⟩ }) := by
  rcases scaleScore_cases large templ corr method s with hs | ⟨sc, hs⟩
  · exact Or.inl (stepScale_of_none hs)
  · by_cases hlt : b.score < sc
    · exact Or.inr ⟨sc, hs, hlt, by rw [stepScale_of_some hs, if_pos hlt]⟩
    · exact Or.inl (by rw [stepScale_of_some hs, if_neg hlt])

lemma foldl_no_improve (large templ : Img) (corr : Corr) (method : TMMethod) :
    ∀ (l : List ℚ) (b : BestRec),
      (∀ s ∈ l, ∀ sc, scaleScore large templ corr method s = some sc → sc ≤ b.score) →
      l.foldl (stepScale large templ corr method) b = b := by
  intro l
  induction l with
  | nil => intro b _; rfl
  | cons s l ih =>
    intro b h
    rw [List.foldl_cons,
      stepScale_no_improve (fun sc hsc => h s (List.mem_cons_self s l) sc hsc)]
    exact ih b (fun t ht sc hsc => h t (List.mem_cons_of_mem s ht) sc hsc)

lemma foldl_rest_isSome (large templ : Img) (corr : Corr) (method : TMMethod) :
    ∀ (l : List ℚ) (b : BestRec),
      ((l.foldl (stepScale large templ corr method) b).rest.isSome = true ↔
        (b.rest.isSome = true ∨
          ∃ s ∈ l, ∃ sc, scaleScore large templ corr method s = some sc ∧ b.score < sc)) := by
  intro l
  induction l with
  | nil => intro b; simp
  | cons s l ih =>
    intro b
    rw [List.foldl_cons]
    rcases stepScale_or large templ corr method b s with hb | ⟨sc, hsc, hlt, hrepl⟩
    · rw [hb, ih b]
      have hno : ¬ ∃ sc, scaleScore large templ corr method s = some sc ∧ b.score < sc := by
        rintro ⟨sc, hsc, hlt⟩
        have h2 := stepScale_of_some (b := b) hsc
        rw [hb, if_pos hlt] at h2
        have hbs : b.score = sc := by rw [h2]
        rw [hbs] at hlt
        exact lt_irrefl sc hlt
      constructor
      · rintro (h | ⟨t, ht, hex⟩)
        · exact Or.inl h
        · exact Or.inr ⟨t, List.mem_cons_of_mem s ht, hex⟩
      · rintro (h | ⟨t, ht, hex⟩)
        · exact Or.inl h
        · rcases List.mem_cons.mp ht with rfl | ht2
          · exact absurd hex hno
          · exact Or.inr ⟨t, ht2, hex⟩
    · rw [hrepl]
      constructor
      · intro _
        exact Or.inr ⟨s, List.mem_cons_self s l, sc, hsc, hlt⟩
      · intro _
        rw [ih]
        left
        rfl

lemma within_of_grid_bound {W tw x : ℕ} (h1 : tw < W) (h2 : x ≤ W - tw + 1 - 1) :
    x + tw ≤ W := by
  omega

lemma stepScale_bounds {large templ : Img} {corr : Corr} {method : TMMethod}
    {b : BestRec} {s : ℚ}
    (hb : ∀ f, b.rest = some f → f.x + f.w ≤ large.w ∧ f.y + f.h ≤ large.h) :
    ∀ f, (stepScale large templ corr method b s).rest = some f →
      f.x + f.w ≤ large.w ∧ f.y + f.h ≤ large.h := by
  rcases stepScale_or large templ corr method b s with h | ⟨sc, hsc, _, hrepl⟩
  · rw [h]; exact hb
  · intro f hf
    rw [hrepl] at hf
    obtain ⟨hfit1, hfit2⟩ := scaleScore_some_fit hsc
    obtain ⟨hx, hy⟩ := minMaxLocMax_pos_bound
      (large.w - footDim templ.w s + 1) (large.h - footDim templ.h s + 1)
      (corr (footDim templ.w s) (footDim templ.h s))
    have hf2 : (⟨s, footDim templ.w s, footDim templ.h s,
        (minMaxLocMax (large.w - footDim templ.w s + 1) (large.h - footDim templ.h s + 1)
          (corr (footDim templ.w s) (footDim templ.h s))).2.1,
        (minMaxLocMax (large.w - footDim templ.w s + 1) (large.h - footDim templ.h s + 1)
          (corr (footDim templ.w s) (footDim templ.h s))).2.2⟩ : CandFields) = f :=
      Option.some.inj hf
    rw [← hf2]
    exact ⟨within_of_grid_bound hfit2 hx, within_of_grid_bound hfit1 hy⟩

lemma foldl_bounds (large templ : Img) (corr : Corr) (method : TMMethod) :
    ∀ (l : List ℚ) (b : BestRec),
      (∀ f, b.rest = some f → f.x + f.w ≤ large.w ∧ f.y + f.h ≤ large.h) →
      ∀ f, (l.foldl (stepScale large templ corr method) b).rest = some f →
        f.x + f.w ≤ large.w ∧ f.y + f.h ≤ large.h := by
  intro l
  induction l with
  | nil => intro b hb; exact hb
  | cons s l ih =>
    intro b hb
    rw [List.foldl_cons]
    exact ih _ (stepScale_bounds hb)

/-! ### Oracle extensionality: only in-frame windows are ever consulted -/

lemma foldl_fn_congr {α β : Type} (F G : β → α → β) :
    ∀ (l : List α) (b : β), (∀ a ∈ l, ∀ x, F x a = G x a) →
      l.foldl F b = l.foldl G b := by
  intro l
  induction l with
  | nil => intro b _; rfl
  | cons a l ih =>
    intro b h
    rw [List.foldl_cons, List.foldl_cons, h a (List.mem_cons_self a l) b]
    exact ih _ (fun a2 ha2 x => h a2 (List.mem_cons_of_mem a ha2) x)

lemma scanMax_congr {f g : ℕ → ℕ → ℚ} (ps : List (ℕ × ℕ)) (acc : ℚ × ℕ × ℕ)
    (h : ∀ p ∈ ps, f p.1 p.2 = g p.1 p.2) :
    scanMax f ps acc = scanMax g ps acc := by
  unfold scanMax
  exact foldl_fn_congr _ _ ps acc (fun p hp x => by rw [h p hp])

lemma minMaxLocMax_congr {resW resH : ℕ} {f g : ℕ → ℕ → ℚ}
    (h : ∀ x y, x < resW → y < resH → f x y = g x y) (h00 : f 0 0 = g 0 0) :
    minMaxLocMax resW resH f = minMaxLocMax resW resH g := by
  unfold minMaxLocMax
  rw [h00]
  exact scanMax_congr _ _ (fun p hp => h p.1 p.2 (mem_allPositions.mp hp).1
    (mem_allPositions.mp hp).2)

lemma minMaxLocMinVal_congr {resW resH : ℕ} {f g : ℕ → ℕ → ℚ}
    (h : ∀ x y, x < resW → y < resH → f x y = g x y) (h00 : f 0 0 = g 0 0) :
    minMaxLocMinVal resW resH f = minMaxLocMinVal resW resH g := by
  unfold minMaxLocMinVal
  rw [h00]
  exact foldl_fn_congr _ _ _ _ (fun p hp x => by
    rw [h p.1 p.2 (mem_allPositions.mp hp).1 (mem_allPositions.mp hp).2])

lemma stepScale_ext {large templ : Img} {corr1 corr2 : Corr} {method : TMMethod}
    (hagree : ∀ tw th x y, x + tw ≤ large.w → y + th ≤ large.h →
      corr1 tw th x y = corr2 tw th x y)
    (b : BestRec) (s : ℚ) :
    stepScale large templ corr1 method b s = stepScale large templ corr2 method b s := by
  simp only [stepScale]
  by_cases hc : large.h ≤ footDim templ.h s ∨ large.w ≤ footDim templ.w s
  · rw [if_pos hc, if_pos hc]
  · push_neg at hc
    have hcongr : ∀ x y, x < large.w - footDim templ.w s + 1 →
        y < large.h - footDim templ.h s + 1 →
        corr1 (footDim templ.w s) (footDim templ.h s) x y =
          corr2 (footDim templ.w s) (footDim templ.h s) x y := by
      intro x y hx hy
      exact hagree _ _ x y (within_of_grid_bound hc.2 (by omega))
        (within_of_grid_bound hc.1 (by omega))
    have h00 : corr1 (footDim templ.w s) (footDim templ.h s) 0 0 =
        corr2 (footDim templ.w s) (footDim templ.h s) 0 0 :=
      hcongr 0 0 (by omega) (by omega)
    rw [minMaxLocMax_congr hcongr h00, minMaxLocMinVal_congr hcongr h00]

/-! ### The decision-and-report stage -/

lemma decideReport_ok {b : BestRec} {t : ℚ} {d w : Bool} {o : MatchOut} {e : ℕ}
    (h : decideReport b t d w = .ok (o, e)) :
    o.best = b ∧ o.threshold = t ∧ (o.found = true ↔ t ≤ b.score) ∧
      o.match_box.isSome = o.found ∧ e = (if o.found then 0 else 1) ∧
      o.wroteDebug = (d && o.found) := by
  unfold decideReport at h
  by_cases hth : t ≤ b.score
  · rw [if_pos hth] at h
    cases hr : b.rest with
    | none => rw [hr] at h; exact Except.noConfusion h
    | some f =>
      rw [hr] at h
      cases d with
      | false =>
        replace h : Except.ok ((⟨true, b, t, some ⟨f.x, f.y, f.w, f.h⟩, false⟩ : MatchOut), (0 : ℕ)) = Except.ok (o, e) := h
        obtain ⟨ho, he⟩ := Prod.mk.injEq _ _ _ _ ▸ Except.ok.inj h
        rw [← ho, ← he]
        simp [hth]
      | true =>
        cases w with
        | false =>
          replace h : (Except.error PyErr.writeFailure : Except PyErr (MatchOut × ℕ)) =
              Except.ok (o, e) := h
          exact Except.noConfusion h
        | true =>
          replace h : Except.ok ((⟨true, b, t, some ⟨f.x, f.y, f.w, f.h⟩, true⟩ : MatchOut), (0 : ℕ)) = Except.ok (o, e) := h
          obtain ⟨ho, he⟩ := Prod.mk.injEq _ _ _ _ ▸ Except.ok.inj h
          rw [← ho, ← he]
          simp [hth]
  · rw [if_neg hth] at h
    obtain ⟨ho, he⟩ := Prod.mk.injEq _ _ _ _ ▸ Except.ok.inj h
    rw [← ho, ← he]
    simp [hth]

lemma decideReport_notfound {b : BestRec} {t : ℚ} (d w : Bool) (hth : ¬ t ≤ b.score) :
    decideReport b t d w =
      .ok ({ found := false, best := b, threshold := t,
             match_box := none, wroteDebug := false }, 1) := by
  unfold decideReport
  rw [if_neg hth]

lemma decideReport_err_write {b : BestRec} {t : ℚ} {d w : Bool}
    (h : decideReport b t d w = .error .writeFailure) : d = true ∧ w = false := by
  unfold decideReport at h
  by_cases hth : t ≤ b.score
  · rw [if_pos hth] at h
    cases hr : b.rest with
    | none =>
      rw [hr] at h
      exact absurd (Except.error.inj h) (by intro hc; exact PyErr.noConfusion hc)
    | some f =>
      rw [hr] at h
      cases d with
      | false =>
        replace h : Except.ok ((⟨true, b, t, some ⟨f.x, f.y, f.w, f.h⟩, false⟩ : MatchOut), (0 : ℕ)) = Except.error PyErr.writeFailure := h
        exact Except.noConfusion h
      | true =>
        cases w with
        | false => exact ⟨rfl, rfl⟩
        | true =>
          replace h : Except.ok ((⟨true, b, t, some ⟨f.x, f.y, f.w, f.h⟩, true⟩ : MatchOut), (0 : ℕ)) = Except.error PyErr.writeFailure := h
          exact Except.noConfusion h
  · rw [if_neg hth] at h
    exact Except.noConfusion h

/-! ### Unfolding main -/

lemma main_some (L T : Img) (c : Corr) (th : ℚ) (d w : Bool) :
    main (some L) (some T) c th d w =
      decideReport
        (multi_scale_template_search (edge_image L) (edge_image T) c .ccoeffNormed mainScales)
        th d w := rfl

lemma main_none_img (tpl : Option Img) (c : Corr) (th : ℚ) (d w : Bool) :
    main none tpl c th d w = .error .fileNotFound := rfl

lemma main_none_tpl (L : Img) (c : Corr) (th : ℚ) (d w : Bool) :
    main (some L) none c th d w = .error .fileNotFound := rfl

/-! ### Concrete evaluations -/

lemma scaleFuel_default : scaleFuel 0.4 1.6 0.05 = 26 := by
  unfold scaleFuel
  rw [if_neg (by norm_num)]
  rw [show ⌊((1.6 : ℚ) + sweepEps - 0.4) / 0.05⌋ = 24 from by norm_num [sweepEps]]
  rfl

lemma scaleSeq_default : scaleSeq 0.4 1.6 0.05 =
    [0.4, 0.45, 0.5, 0.55, 0.6, 0.65, 0.7, 0.75, 0.8, 0.85, 0.9, 0.95, 1, 1.05,
     1.1, 1.15, 1.2, 1.25, 1.3, 1.35, 1.4, 1.45, 1.5, 1.55, 1.6] := by
  rw [scaleSeq, scaleFuel_default]
  norm_num [scaleSeqAux, sweepEps]

lemma scaleSeq_unit : scaleSeq 1 1 1 = [1] := by
  rw [scaleSeq]
  rw [show scaleFuel 1 1 1 = 2 from by
    unfold scaleFuel
    rw [if_neg (by norm_num)]
    rw [show ⌊((1 : ℚ) + sweepEps - 1) / 1⌋ = 0 from by norm_num [sweepEps]]
    rfl]
  norm_num [scaleSeqAux, sweepEps]

lemma search_nofit :
    multi_scale_template_search ⟨3, 3⟩ ⟨10, 10⟩ zeroCorr .ccoeffNormed mainScales =
      { score := -1, rest := none } := by
  rw [show mainScales = (0.4, 1.6, 0.05) from rfl]
  rw [multi_scale_template_search]
  rw [scaleSeq_default]
  norm_num [stepScale, footDim, pyRound, List.foldl]

lemma search_fit :
    multi_scale_template_search ⟨3, 3⟩ ⟨2, 2⟩ oneCorr .ccoeffNormed mainScales =
      { score := 1, rest := some ⟨0.4, 2, 2, 0, 0⟩ } := by
  rw [show mainScales = (0.4, 1.6, 0.05) from rfl]
  rw [multi_scale_template_search]
  rw [scaleSeq_default]
  norm_num [stepScale, footDim, pyRound, List.foldl, minMaxLocMax, minMaxLocMinVal, scanMax,
    allPositions, oneCorr, TMMethod.maxBased, List.range, List.range.loop]
  all_goals decide

lemma allskip_10_in_3 :
    ∀ s ∈ scaleSeq 0.4 1.6 0.05,
      scaleScore (⟨3, 3⟩ : Img) (⟨10, 10⟩ : Img) zeroCorr .ccoeffNormed s = none := by
  rw [scaleSeq_default]
  intro s hs
  have hcond : ∀ t : ℚ, (3 : ℕ) ≤ footDim 10 t →
      scaleScore (⟨3, 3⟩ : Img) (⟨10, 10⟩ : Img) zeroCorr .ccoeffNormed t = none := by
    intro t ht
    unfold scaleScore
    rw [if_pos (Or.inl ht)]
  fin_cases hs <;> refine hcond _ ?_ <;> norm_num [footDim, pyRound]

lemma main_nofit (th : ℚ) (hth : ¬ th ≤ -1) :
    main (some ⟨3, 3⟩) (some ⟨10, 10⟩) zeroCorr th false true =
      .ok (⟨false, ⟨-1, none⟩, th, none, false⟩, 1) := by
  rw [main_some]
  rw [show edge_image ⟨3, 3⟩ = (⟨3, 3⟩ : Img) from rfl,
    show edge_image ⟨10, 10⟩ = (⟨10, 10⟩ : Img) from rfl]
  rw [search_nofit]
  exact decideReport_notfound false true hth

lemma main_fit (dbg wOk : Bool) :
    main (some ⟨3, 3⟩) (some ⟨2, 2⟩) oneCorr (1/2) dbg wOk =
      decideReport ⟨1, some ⟨0.4, 2, 2, 0, 0⟩⟩ (1/2) dbg wOk := by
  rw [main_some]
  rw [show edge_image ⟨3, 3⟩ = (⟨3, 3⟩ : Img) from rfl,
    show edge_image ⟨2, 2⟩ = (⟨2, 2⟩ : Img) from rfl]
  rw [search_fit]

lemma decideReport_keyError {b : BestRec} {t : ℚ} (d w : Bool)
    (hth : t ≤ b.score) (hr : b.rest = none) :
    decideReport b t d w = .error .keyError := by
  unfold decideReport
  rw [if_pos hth, hr]

lemma decideReport_found_ok {b : BestRec} {t : ℚ} {f : CandFields} (d : Bool)
    (hth : t ≤ b.score) (hr : b.rest = some f) :
    decideReport b t d true = .ok (⟨true, b, t, some ⟨f.x, f.y, f.w, f.h⟩, d⟩, 0) := by
  unfold decideReport
  rw [if_pos hth, hr]
  cases d with
  | false => rfl
  | true => rfl

lemma main_fit_ok (dbg : Bool) :
    main (some ⟨3, 3⟩) (some ⟨2, 2⟩) oneCorr (1/2) dbg true =
      .ok (⟨true, ⟨1, some ⟨0.4, 2, 2, 0, 0⟩⟩, 1/2, some ⟨0, 0, 2, 2⟩, dbg⟩, 0) := by
  rw [main_fit]
  exact decideReport_found_ok (b := ⟨1, some ⟨0.4, 2, 2, 0, 0⟩⟩) (t := 1/2)
    (f := ⟨0.4, 2, 2, 0, 0⟩) dbg (by norm_num) rfl

lemma main_fit_err :
    main (some ⟨3, 3⟩) (some ⟨2, 2⟩) oneCorr (1/2) true false = .error .writeFailure := by
  rw [main_fit]
  unfold decideReport
  rw [if_pos (by norm_num)]
  rfl

/-! ### The claims -/

/-- Claim C1: whenever `main` emits a Match Result, `found` is true if and
only if the global best score of the scale-space search is at least the
threshold, and `match_box` is present in the emitted result exactly when
`found` is true. -/
theorem claim_c1 (L T : Img) (c : Corr) (th : ℚ) (dbg wOk : Bool)
    (out : MatchOut) (ec : ℕ)
    (h : main (some L) (some T) c th dbg wOk = .ok (out, ec)) :
    (out.found = true ↔
      th ≤ (multi_scale_template_search (edge_image L) (edge_image T) c
        .ccoeffNormed mainScales).score) ∧
    out.match_box.isSome = out.found := by
  rw [main_some] at h
  obtain ⟨hbest, hthr, hfound, hbox, hec, hwrote⟩ := decideReport_ok h
  exact ⟨hfound, hbox⟩

/-- Witness for C1 at a concrete not-found run. -/
theorem claim_c1_witness :
    (MatchOut.found ⟨false, ⟨-1, none⟩, 7/10, none, false⟩ = true ↔
      (7/10 : ℚ) ≤ (multi_scale_template_search (edge_image ⟨3, 3⟩) (edge_image ⟨10, 10⟩)
        zeroCorr .ccoeffNormed mainScales).score) ∧
    (MatchOut.match_box ⟨false, ⟨-1, none⟩, 7/10, none, false⟩).isSome =
      MatchOut.found ⟨false, ⟨-1, none⟩, 7/10, none, false⟩ :=
  claim_c1 ⟨3, 3⟩ ⟨10, 10⟩ zeroCorr (7/10) false true
    ⟨false, ⟨-1, none⟩, 7/10, none, false⟩ 1 (main_nofit (7/10) (by norm_num))

/-- Claim C2: at every scale `s` the sweep either produces no candidate,
or a candidate whose footprint is exactly
`(round(width*s), round(height*s))` floored at a minimum of 2; and it
produces no candidate whenever that footprint is not strictly smaller
than the target in both dimensions. -/
theorem claim_c2 (large templ : Img) (c : Corr) (m : TMMethod) (b : BestRec) (s : ℚ) :
    (¬ (footDim templ.h s < large.h ∧ footDim templ.w s < large.w) →
      stepScale large templ c m b s = b) ∧
    (stepScale large templ c m b s = b ∨
      ∃ sc x y, stepScale large templ c m b s =
        ⟨sc, some ⟨s, (max 2 (pyRound ((templ.w : ℚ) * s))).toNat,
          (max 2 (pyRound ((templ.h : ℚ) * s))).toNat, x, y⟩⟩) := by
  constructor
  · intro hnf
    unfold stepScale
    rw [if_pos (by omega)]
  · rcases stepScale_or large templ c m b s with h | ⟨sc, _, _, hrepl⟩
    · exact Or.inl h
    · exact Or.inr ⟨sc, _, _, hrepl⟩

/-- Witness for C2: at scale 1 a 10×10 template does not fit a 3×3
target, so the step produces no candidate. -/
theorem claim_c2_witness :
    stepScale ⟨3, 3⟩ ⟨10, 10⟩ zeroCorr .ccoeffNormed ⟨-1, none⟩ 1 = ⟨-1, none⟩ :=
  (claim_c2 ⟨3, 3⟩ ⟨10, 10⟩ zeroCorr .ccoeffNormed ⟨-1, none⟩ 1).1
    (by norm_num [footDim, pyRound])

/-- Counterexample to C3 as stated: when the template fits at no scale
and the threshold is `-2`, the sentinel best score `-1` passes the
threshold and building `match_box` raises a `KeyError`, so the invocation
crashes instead of yielding a `found = false` result. -/
theorem claim_c3_counterexample :
    main (some ⟨3, 3⟩) (some ⟨10, 10⟩) zeroCorr (-2) false true = .error .keyError := by
  rw [main_some]
  rw [show edge_image ⟨3, 3⟩ = (⟨3, 3⟩ : Img) from rfl,
    show edge_image ⟨10, 10⟩ = (⟨10, 10⟩ : Img) from rfl]
  rw [search_nofit]
  exact decideReport_keyError false true (by norm_num) rfl

/-- Claim C3 (amended): if every tested scale is skipped, and the
threshold is greater than the sentinel score `-1`, the invocation yields
a fully structured `found = false` result with the sentinel best and exit
code 1, and does not crash. -/
theorem claim_c3_amended (L T : Img) (c : Corr) (th : ℚ) (dbg wOk : Bool)
    (hskip : ∀ s ∈ scaleSeq 0.4 1.6 0.05,
      scaleScore (edge_image L) (edge_image T) c .ccoeffNormed s = none)
    (hth : (-1 : ℚ) < th) :
    main (some L) (some T) c th dbg wOk =
      .ok (⟨false, ⟨-1, none⟩, th, none, false⟩, 1) := by
  rw [main_some]
  have hsearch : multi_scale_template_search (edge_image L) (edge_image T) c
      .ccoeffNormed mainScales = ⟨-1, none⟩ := by
    rw [multi_scale_template_search]
    exact foldl_no_improve _ _ _ _ _ _ (fun s hs sc hsc => by
      rw [hskip s hs] at hsc
      exact Option.noConfusion hsc)
  rw [hsearch]
  exact decideReport_notfound dbg wOk (not_le.mpr hth)

/-- Witness for C3 (amended) at a concrete 10×10 template and 3×3
target with the default threshold. -/
theorem claim_c3_amended_witness :
    main (some ⟨3, 3⟩) (some ⟨10, 10⟩) zeroCorr (7/10) false true =
      .ok (⟨false, ⟨-1, none⟩, 7/10, none, false⟩, 1) :=
  claim_c3_amended ⟨3, 3⟩ ⟨10, 10⟩ zeroCorr (7/10) false true
    allskip_10_in_3 (by norm_num)

/-- Counterexample to C4 as stated: when no scale produces a candidate,
the emitted result carries the sentinel best `{score := -1}`, whose
`scale`, `width`, `height`, `x` and `y` fields are absent. -/
theorem claim_c4_counterexample :
    main (some ⟨3, 3⟩) (some ⟨10, 10⟩) zeroCorr (7/10) false true =
      .ok (⟨false, ⟨-1, none⟩, 7/10, none, false⟩, 1) ∧
    BestRec.rest ⟨-1, none⟩ = none :=
  ⟨main_nofit (7/10) (by norm_num), rfl⟩

/-- Claim C4 (amended): the best record always carries `score`; it
carries `scale`, `width`, `height`, `x` and `y` exactly when some tested
scale fits and scores strictly above the `-1` sentinel, and otherwise the
search returns exactly the sentinel `{score := -1}`. -/
theorem claim_c4_amended (large templ : Img) (c : Corr) (m : TMMethod)
    (mins maxs step : ℚ) :
    ((multi_scale_template_search large templ c m (mins, maxs, step)).rest.isSome = true ↔
      ∃ s ∈ scaleSeq mins maxs step, ∃ sc,
        scaleScore large templ c m s = some sc ∧ (-1 : ℚ) < sc) ∧
    ((multi_scale_template_search large templ c m (mins, maxs, step)).rest = none →
      multi_scale_template_search large templ c m (mins, maxs, step) = ⟨-1, none⟩) := by
  constructor
  · rw [multi_scale_template_search]
    rw [foldl_rest_isSome large templ c m (scaleSeq mins maxs step) ⟨-1, none⟩]
    simp
  · intro hnone
    rw [multi_scale_template_search] at hnone ⊢
    have hnot : ¬ ∃ s ∈ scaleSeq mins maxs step, ∃ sc,
        scaleScore large templ c m s = some sc ∧ (-1 : ℚ) < sc := by
      intro hex
      have hsome := (foldl_rest_isSome large templ c m (scaleSeq mins maxs step)
        ⟨-1, none⟩).mpr (Or.inr hex)
      rw [hnone] at hsome
      exact Bool.noConfusion hsome
    apply foldl_no_improve
    intro s hs sc hsc
    by_contra hlt
    push_neg at hlt
    exact hnot ⟨s, hs, sc, hsc, hlt⟩

/-- Witness for C4 (amended): the no-fit search returns exactly the
sentinel. -/
theorem claim_c4_amended_witness :
    multi_scale_template_search ⟨3, 3⟩ ⟨10, 10⟩ zeroCorr .ccoeffNormed (0.4, 1.6, 0.05) =
      ⟨-1, none⟩ :=
  (claim_c4_amended ⟨3, 3⟩ ⟨10, 10⟩ zeroCorr .ccoeffNormed 0.4 1.6 0.05).2
    (by rw [show ((0.4 : ℚ), (1.6 : ℚ), (0.05 : ℚ)) = mainScales from rfl, search_nofit])

/-- Claim C5: every candidate returned by the scale-space search lies
entirely within the target bounds (`x`, `y` are naturals, hence
nonnegative, and `x + width ≤ target_width`, `y + height ≤
target_height`); moreover the search only ever consults the correlation
oracle on in-frame windows, so oracles agreeing on in-frame windows give
identical results. -/
theorem claim_c5 :
    (∀ (large templ : Img) (c : Corr) (m : TMMethod) (scs : ℚ × ℚ × ℚ) (f : CandFields),
      (multi_scale_template_search large templ c m scs).rest = some f →
        f.x + f.w ≤ large.w ∧ f.y + f.h ≤ large.h) ∧
    (∀ (large templ : Img) (c1 c2 : Corr) (m : TMMethod) (scs : ℚ × ℚ × ℚ),
      (∀ tw th x y, x + tw ≤ large.w → y + th ≤ large.h → c1 tw th x y = c2 tw th x y) →
      multi_scale_template_search large templ c1 m scs =
        multi_scale_template_search large templ c2 m scs) := by
  constructor
  · intro large templ c m scs f hf
    rw [multi_scale_template_search] at hf
    exact foldl_bounds large templ c m _ ⟨-1, none⟩
      (fun f2 hf2 => Option.noConfusion hf2) f hf
  · intro large templ c1 c2 m scs hagree
    rw [multi_scale_template_search, multi_scale_template_search]
    exact foldl_fn_congr _ _ _ _ (fun s hs x => stepScale_ext hagree x s)

/-- Witness for C5: a concrete in-bounds candidate, and oracle
independence from out-of-frame values. -/
theorem claim_c5_witness :
    (CandFields.x ⟨0.4, 2, 2, 0, 0⟩ + CandFields.w ⟨0.4, 2, 2, 0, 0⟩ ≤ 3 ∧
      CandFields.y ⟨0.4, 2, 2, 0, 0⟩ + CandFields.h ⟨0.4, 2, 2, 0, 0⟩ ≤ 3) ∧
    multi_scale_template_search ⟨3, 3⟩ ⟨2, 2⟩ oneCorr .ccoeffNormed mainScales =
      multi_scale_template_search ⟨3, 3⟩ ⟨2, 2⟩
        (fun tw th x y => if x + tw ≤ 3 ∧ y + th ≤ 3 then 1 else 99)
        .ccoeffNormed mainScales :=
  ⟨claim_c5.1 ⟨3, 3⟩ ⟨2, 2⟩ oneCorr .ccoeffNormed mainScales ⟨0.4, 2, 2, 0, 0⟩
      (by rw [search_fit]),
   claim_c5.2 ⟨3, 3⟩ ⟨2, 2⟩ oneCorr
      (fun tw th x y => if x + tw ≤ 3 ∧ y + th ≤ 3 then 1 else 99) .ccoeffNormed mainScales
      (fun tw th x y hx hy => (if_pos ⟨hx, hy⟩).symm)⟩

/-- Claim C6: the running best is replaced only by a strictly
higher-scoring candidate, so if the tail of the sweep never strictly
beats the best accumulated over the initial segment, the initial
segment's best (the lower-scale candidate on an exact tie) is returned. -/
theorem claim_c6 :
    (∀ (large templ : Img) (c : Corr) (m : TMMethod) (b : BestRec) (s : ℚ),
      stepScale large templ c m b s = b ∨
        b.score < (stepScale large templ c m b s).score) ∧
    (∀ (large templ : Img) (c : Corr) (m : TMMethod) (mins maxs step : ℚ)
        (l1 l2 : List ℚ),
      scaleSeq mins maxs step = l1 ++ l2 →
      (∀ s ∈ l2, ∀ sc, scaleScore large templ c m s = some sc →
        sc ≤ (l1.foldl (stepScale large templ c m) ⟨-1, none⟩).score) →
      multi_scale_template_search large templ c m (mins, maxs, step) =
        l1.foldl (stepScale large templ c m) ⟨-1, none⟩) := by
  constructor
  · intro large templ c m b s
    rcases stepScale_or large templ c m b s with h | ⟨sc, hsc, hlt, hrepl⟩
    · exact Or.inl h
    · right
      rw [hrepl]
      exact hlt
  · intro large templ c m mins maxs step l1 l2 hsplit hle
    rw [multi_scale_template_search, hsplit, List.foldl_append]
    exact foldl_no_improve large templ c m l2 _ hle

/-- Witness for C6 on the one-element sweep `(1, 1, 1)`. -/
theorem claim_c6_witness :
    multi_scale_template_search ⟨3, 3⟩ ⟨2, 2⟩ oneCorr .ccoeffNormed (1, 1, 1) =
      List.foldl (stepScale ⟨3, 3⟩ ⟨2, 2⟩ oneCorr .ccoeffNormed) ⟨-1, none⟩ [1] :=
  claim_c6.2 ⟨3, 3⟩ ⟨2, 2⟩ oneCorr .ccoeffNormed 1 1 1 [1] []
    (by rw [scaleSeq_unit, List.append_nil])
    (fun s hs => absurd hs (List.not_mem_nil s))

/-- Claim C7: the matcher's sweep uses `min_scale = 0.4`,
`max_scale = 1.6`, `step = 0.05`, visiting exactly the 25 scales from 0.4
to 1.6. -/
theorem claim_c7 :
    mainScales = (0.4, 1.6, 0.05) ∧
    scaleSeq 0.4 1.6 0.05 =
      [0.4, 0.45, 0.5, 0.55, 0.6, 0.65, 0.7, 0.75, 0.8, 0.85, 0.9, 0.95, 1, 1.05,
       1.1, 1.15, 1.2, 1.25, 1.3, 1.35, 1.4, 1.45, 1.5, 1.55, 1.6] :=
  ⟨rfl, scaleSeq_default⟩

/-- Counterexample to C8 as stated: a missing input image terminates the
process with the interpreter's uncaught-exception status 1, the same exit
code as a `found = false` run, so the two outcomes are not
distinguishable by exit code. -/
theorem claim_c8_counterexample :
    processExit (main none (some ⟨10, 10⟩) zeroCorr (7/10) false true) = 1 ∧
    processExit (main (some ⟨3, 3⟩) (some ⟨10, 10⟩) zeroCorr (7/10) false true) = 1 ∧
    main (some ⟨3, 3⟩) (some ⟨10, 10⟩) zeroCorr (7/10) false true =
      .ok (⟨false, ⟨-1, none⟩, 7/10, none, false⟩, 1) := by
  refine ⟨rfl, ?_, main_nofit (7/10) (by norm_num)⟩
  rw [show processExit (main (some ⟨3, 3⟩) (some ⟨10, 10⟩) zeroCorr (7/10) false true) =
      processExit (.ok (⟨false, ⟨-1, none⟩, 7/10, none, false⟩, 1))
    from by rw [main_nofit (7/10) (by norm_num)]]
  rfl

/-- Claim C8 (amended): exit code 0 exactly when `found` is true and 1
when `found` is false; a missing input image raises, and every uncaught
exception also terminates with status 1, which therefore does not
distinguish input errors from not-found. -/
theorem claim_c8_amended (img tpl : Option Img) (c : Corr) (th : ℚ) (dbg wOk : Bool) :
    (∀ out ec, main img tpl c th dbg wOk = .ok (out, ec) →
      ec = if out.found then 0 else 1) ∧
    (img = none → main img tpl c th dbg wOk = .error .fileNotFound) ∧
    (∀ e, main img tpl c th dbg wOk = .error e →
      processExit (main img tpl c th dbg wOk) = 1) := by
  refine ⟨?_, ?_, ?_⟩
  · intro out ec h
    cases img with
    | none => rw [main_none_img] at h; exact Except.noConfusion h
    | some L =>
      cases tpl with
      | none => rw [main_none_tpl] at h; exact Except.noConfusion h
      | some T =>
        rw [main_some] at h
        obtain ⟨_, _, _, _, hec, _⟩ := decideReport_ok h
        exact hec
  · intro himg
    subst himg
    exact main_none_img tpl c th dbg wOk
  · intro e h
    unfold processExit
    rw [h]

/-- Witness for C8 (amended): the not-found exit code and the
missing-file error at concrete inputs. -/
theorem claim_c8_amended_witness :
    ((1 : ℕ) = if MatchOut.found ⟨false, ⟨-1, none⟩, 7/10, none, false⟩ then 0 else 1) ∧
    main none (some ⟨10, 10⟩) zeroCorr (7/10) false true = .error .fileNotFound :=
  ⟨(claim_c8_amended (some ⟨3, 3⟩) (some ⟨10, 10⟩) zeroCorr (7/10) false true).1
      ⟨false, ⟨-1, none⟩, 7/10, none, false⟩ 1 (main_nofit (7/10) (by norm_num)),
   (claim_c8_amended none (some ⟨10, 10⟩) zeroCorr (7/10) false true).2.1 rfl⟩

/-- Counterexample to C9 as stated: with a debug path supplied and a
failing write, the invocation aborts with `writeFailure` before any
result is reported, whereas the same run with a succeeding write reports
a full result — so a write failure does change what is reported. -/
theorem claim_c9_counterexample :
    main (some ⟨3, 3⟩) (some ⟨2, 2⟩) oneCorr (1/2) true false = .error .writeFailure ∧
    main (some ⟨3, 3⟩) (some ⟨2, 2⟩) oneCorr (1/2) true true =
      .ok (⟨true, ⟨1, some ⟨0.4, 2, 2, 0, 0⟩⟩, 1/2, some ⟨0, 0, 2, 2⟩, true⟩, 0) :=
  ⟨main_fit_err, main_fit_ok true⟩

/-- Claim C9 (amended): the debug write is attempted only when a debug
path is supplied and `found` is true; a successful write leaves `found`,
`best`, `threshold` and `match_box` identical to a run without debug; a
failing write aborts the invocation (it occurs only with a debug path
supplied and a failing writer). -/
theorem claim_c9_amended (img tpl : Option Img) (c : Corr) (th : ℚ) (dbg wOk : Bool) :
    (∀ out ec, main img tpl c th dbg wOk = .ok (out, ec) →
      out.wroteDebug = (dbg && out.found)) ∧
    (∀ out ec, main img tpl c th dbg true = .ok (out, ec) →
      main img tpl c th false true =
        .ok (⟨out.found, out.best, out.threshold, out.match_box, false⟩, ec)) ∧
    (main img tpl c th dbg wOk = .error .writeFailure → dbg = true ∧ wOk = false) := by
  refine ⟨?_, ?_, ?_⟩
  · intro out ec h
    cases img with
    | none => rw [main_none_img] at h; exact Except.noConfusion h
    | some L =>
      cases tpl with
      | none => rw [main_none_tpl] at h; exact Except.noConfusion h
      | some T =>
        rw [main_some] at h
        obtain ⟨_, _, _, _, _, hwrote⟩ := decideReport_ok h
        exact hwrote
  · intro out ec h
    cases img with
    | none => rw [main_none_img] at h; exact Except.noConfusion h
    | some L =>
      cases tpl with
      | none => rw [main_none_tpl] at h; exact Except.noConfusion h
      | some T =>
        rw [main_some] at h ⊢
        by_cases hth : th ≤ (multi_scale_template_search (edge_image L) (edge_image T) c
            .ccoeffNormed mainScales).score
        · cases hr : (multi_scale_template_search (edge_image L) (edge_image T) c
              .ccoeffNormed mainScales).rest with
          | none =>
            rw [decideReport_keyError dbg true hth hr] at h
            exact Except.noConfusion h
          | some f =>
            rw [decideReport_found_ok dbg hth hr] at h
            obtain ⟨ho, he⟩ := Prod.mk.injEq _ _ _ _ ▸ Except.ok.inj h
            rw [← ho, ← he]
            exact decideReport_found_ok false hth hr
        · rw [decideReport_notfound dbg true hth] at h
          obtain ⟨ho, he⟩ := Prod.mk.injEq _ _ _ _ ▸ Except.ok.inj h
          rw [← ho, ← he]
          exact decideReport_notfound false true hth
  · intro h
    cases img with
    | none =>
      rw [main_none_img] at h
      injection h with h2
      exact PyErr.noConfusion h2
    | some L =>
      cases tpl with
      | none =>
        rw [main_none_tpl] at h
        injection h with h2
        exact PyErr.noConfusion h2
      | some T =>
        rw [main_some] at h
        exact decideReport_err_write h

/-- Witness for C9 (amended) at a concrete found run with debug
enabled. -/
theorem claim_c9_amended_witness :
    (MatchOut.wroteDebug ⟨true, ⟨1, some ⟨0.4, 2, 2, 0, 0⟩⟩, 1/2, some ⟨0, 0, 2, 2⟩, true⟩ =
      (true && MatchOut.found
        ⟨true, ⟨1, some ⟨0.4, 2, 2, 0, 0⟩⟩, 1/2, some ⟨0, 0, 2, 2⟩, true⟩)) ∧
    (true = true ∧ false = false) :=
  ⟨(claim_c9_amended (some ⟨3, 3⟩) (some ⟨2, 2⟩) oneCorr (1/2) true true).1
      ⟨true, ⟨1, some ⟨0.4, 2, 2, 0, 0⟩⟩, 1/2, some ⟨0, 0, 2, 2⟩, true⟩ 0 (main_fit_ok true),
   (claim_c9_amended (some ⟨3, 3⟩) (some ⟨2, 2⟩) oneCorr (1/2) true false).2.2 main_fit_err⟩

/-- Claim C10: two runs on the same images that differ only in the
threshold and both emit a result carry identical `best` records — the
threshold never influences the candidate search. -/
theorem claim_c10 (img tpl : Option Img) (c : Corr) (dbg wOk : Bool)
    (t1 t2 : ℚ) (o1 o2 : MatchOut) (e1 e2 : ℕ)
    (h1 : main img tpl c t1 dbg wOk = .ok (o1, e1))
    (h2 : main img tpl c t2 dbg wOk = .ok (o2, e2)) :
    o1.best = o2.best := by
  cases img with
  | none => rw [main_none_img] at h1; exact Except.noConfusion h1
  | some L =>
    cases tpl with
    | none => rw [main_none_tpl] at h1; exact Except.noConfusion h1
    | some T =>
      rw [main_some] at h1 h2
      obtain ⟨hb1, _⟩ := decideReport_ok h1
      obtain ⟨hb2, _⟩ := decideReport_ok h2
      rw [hb1, hb2]

/-- Witness for C10: two concrete runs at thresholds 0.7 and 0.3 share
the same best record. -/
theorem claim_c10_witness :
    MatchOut.best ⟨false, ⟨-1, none⟩, 7/10, none, false⟩ =
      MatchOut.best ⟨false, ⟨-1, none⟩, 3/10, none, false⟩ :=
  claim_c10 (some ⟨3, 3⟩) (some ⟨10, 10⟩) zeroCorr false true (7/10) (3/10)
    ⟨false, ⟨-1, none⟩, 7/10, none, false⟩ ⟨false, ⟨-1, none⟩, 3/10, none, false⟩ 1 1
    (main_nofit (7/10) (by norm_num)) (main_nofit (3/10) (by norm_num))

end TemplateMatch
